import Mathlib

/-!
Shallow embedding of the ETL Job Scheduler & Orchestrator core
(src/ETLJob/job_manager.py, src/ETLJob/scheduler_engine.py,
src/ETLJob/etl_scheduler.py import/export path).

Modelling conventions:
* Timestamps are integers (seconds).  A stored nullable timestamp column
  (`last_run`, `next_run`) is a `TStamp`: `null` models SQL NULL / Python
  `None`, `valid t` models an ISO string that `datetime.fromisoformat`
  parses to time `t`, `invalid` models a non-empty string that makes
  `fromisoformat` raise.
* The stored `environment_vars` TEXT column is an `EnvVars`: `absent`
  models NULL or the empty string (both falsy in Python), `parses kvs`
  a JSON text that `json.loads` decodes to the dictionary `kvs`,
  `malformed` a non-empty text on which `json.loads` (or the subsequent
  `dict.update`) raises.
* External child processes are oracles: a `ProcOutcome` says what the
  spawned process did (finished with captured output and exit code,
  exceeded the configured timeout, or failed to spawn, i.e. `Popen` /
  `communicate` raised some other exception).
* The croniter library is an oracle `String → Int → Option Int`:
  `cronNext expr now` is the occurrence that `croniter(expr, now)
  .get_next(datetime)` returns, `none` when the constructor raises on a
  malformed expression.
-/

/-- Model of a nullable timestamp column holding an ISO string. -/
inductive TStamp where
  | null : TStamp
  | valid : Int → TStamp
  | invalid : TStamp
deriving DecidableEq, Repr

/-- Python truthiness of the stored timestamp value: `None` and the empty
string are falsy; any ISO string (parseable or not) is non-empty, hence
truthy. -/
def TStamp.truthy : TStamp → Bool
  | .null => false
  | .valid _ => true
  | .invalid => true

/-- Model of the stored `environment_vars` TEXT column. -/
inductive EnvVars where
  | absent : EnvVars
  | parses : List (String × String) → EnvVars
  | malformed : EnvVars
deriving DecidableEq, Repr

/-- One row of the `jobs` table (schema in job_manager.py,
`init_database`). -/
structure Job where
  id : Nat
  name : String
  description : Option String
  job_type : String
  command : String
  working_directory : Option String
  environment_vars : EnvVars
  schedule_type : String
  cron_expression : Option String
  interval_minutes : Option Int
  enabled : Bool
  status : String
  last_run : TStamp
  next_run : TStamp
  max_retries : Nat
  retry_delay_seconds : Int
  timeout_seconds : Option Int
  notification_email : Option String
  notify_on_success : Bool
  notify_on_failure : Bool
  created_at : Int
  updated_at : Int
deriving DecidableEq, Repr

/-- One row of the `job_dependencies` table. -/
structure DepEdge where
  job_id : Nat
  depends_on_job_id : Nat
deriving DecidableEq, Repr

/-- One row of the `job_executions` table. -/
structure ExecRec where
  id : Nat
  job_id : Nat
  start_time : Int
  end_time : Option Int
  status : String
  exit_code : Option Int
  output : Option String
  error_output : Option String
  retry_count : Nat
  triggered_by : String
deriving DecidableEq, Repr

/-- The SQLite database owned by JobManager. -/
structure Store where
  jobs : List Job
  deps : List DepEdge
  execs : List ExecRec
  next_job_id : Nat
  next_exec_id : Nat
deriving Repr

def Store.empty : Store := ⟨[], [], [], 1, 1⟩

/-! ### Job Store operations (job_manager.py) -/

/-- `get_job`: `SELECT * FROM jobs WHERE id = ?` (id is the primary key,
so at most one row matches). -/
def get_job (st : Store) (jid : Nat) : Option Job :=
  st.jobs.find? (fun j => j.id == jid)

/-- Lexicographic order on character lists by code point, the order
SQLite's `ORDER BY` uses on ASCII text. -/
def charListLe : List Char → List Char → Bool
  | [], _ => true
  | _ :: _, [] => false
  | a :: as, b :: bs =>
      if a.val < b.val then true
      else if b.val < a.val then false
      else charListLe as bs

def strLe (a b : String) : Bool := charListLe a.data b.data

/-- Insertion sort of jobs by name, modelling `ORDER BY name`. -/
def sortByName (l : List Job) : List Job :=
  List.insertionSort (fun a b => strLe a.name b.name = true) l

/-- `get_all_jobs`: `SELECT * FROM jobs ORDER BY name`. -/
def get_all_jobs (st : Store) : List Job :=
  sortByName st.jobs

/-- `get_enabled_jobs`: `SELECT * FROM jobs WHERE enabled = 1 ORDER BY name`. -/
def get_enabled_jobs (st : Store) : List Job :=
  sortByName (st.jobs.filter (fun j => j.enabled))

/-- `create_job`: strips `id`, `created_at`, `updated_at` from the record
and inserts the remaining fields; the database assigns a fresh id and
stamps `created_at` / `updated_at` with CURRENT_TIMESTAMP (`now`). -/
def create_job (st : Store) (now : Int) (r : Job) : Store × Nat :=
  let j : Job := { r with id := st.next_job_id, created_at := now, updated_at := now }
  ({ st with jobs := st.jobs ++ [j], next_job_id := st.next_job_id + 1 },
   st.next_job_id)

/-- `update_job_status job_id "status" value` as used by the engine:
`UPDATE jobs SET status = ?, updated_at = CURRENT_TIMESTAMP WHERE id = ?`. -/
def update_job_status (st : Store) (jid : Nat) (v : String) (now : Int) : Store :=
  { st with jobs := st.jobs.map (fun j =>
      if j.id == jid then { j with status := v, updated_at := now } else j) }

/-- `update_job_last_run` with the default timestamp
`datetime.now().isoformat()`. -/
def update_job_last_run (st : Store) (jid : Nat) (now : Int) : Store :=
  { st with jobs := st.jobs.map (fun j =>
      if j.id == jid then { j with last_run := .valid now, updated_at := now } else j) }

/-- `update_job_next_run`. -/
def update_job_next_run (st : Store) (jid : Nat) (t : Int) (now : Int) : Store :=
  { st with jobs := st.jobs.map (fun j =>
      if j.id == jid then { j with next_run := .valid t, updated_at := now } else j) }

/-- `create_execution`: INSERT with status "running", start = now. -/
def create_execution (st : Store) (jid : Nat) (now : Int) (trig : String) :
    Store × Nat :=
  let e : ExecRec :=
    { id := st.next_exec_id, job_id := jid, start_time := now, end_time := none,
      status := "running", exit_code := none, output := none, error_output := none,
      retry_count := 0, triggered_by := trig }
  ({ st with execs := st.execs ++ [e], next_exec_id := st.next_exec_id + 1 },
   st.next_exec_id)

/-- `update_execution` with the keyword arguments execute_job passes:
end_time, status, exit_code, output, error_output, retry_count. -/
def update_execution (st : Store) (eid : Nat) (endT : Int) (status : String)
    (code : Option Int) (out err : String) (rc : Nat) : Store :=
  { st with execs := st.execs.map (fun e =>
      if e.id == eid then
        { e with end_time := some endT, status := status, exit_code := code,
                 output := some out, error_output := some err, retry_count := rc }
      else e) }

/-- `export_jobs` (etl_scheduler.py lines 616-632): the records dumped to
the JSON file are exactly `get_all_jobs`. -/
def export_jobs (st : Store) : List Job :=
  get_all_jobs st

/-- `import_jobs` (etl_scheduler.py lines 592-613): for each imported
record, drop the identity field (`job_data.pop` of the id key) and call
`create_job` (which itself also skips `created_at` / `updated_at`). -/
def import_jobs (st : Store) (now : Int) (records : List Job) : Store :=
  records.foldl (fun s r => (create_job s now r).1) st

/-- The definition fields of a job: everything except the identity and the
bookkeeping timestamps that `create_job` strips and re-stamps (realized by
zeroing those three fields). -/
def defFields (j : Job) : Job :=
  { j with id := 0, created_at := 0, updated_at := 0 }

/-- The row returned by `SELECT status FROM job_executions WHERE job_id = ?
ORDER BY start_time DESC LIMIT 1`: an execution of the job with maximal
start time (on equal start times the later-inserted row is taken, one of
the orders SQLite may produce). -/
def latest_execution (execs : List ExecRec) (jid : Nat) : Option ExecRec :=
  (execs.filter (fun e => e.job_id == jid)).foldl
    (fun acc e =>
      match acc with
      | none => some e
      | some b => if b.start_time ≤ e.start_time then some e else some b)
    none

/-- `check_dependencies_met` (job_manager.py lines 293-330): with no
dependency rows the early return yields true; otherwise every
prerequisite's most recent execution must exist and have status
"completed". -/
def check_dependencies_met (st : Store) (jid : Nat) : Bool :=
  let dependencies := st.deps.filter (fun d => d.job_id == jid)
  dependencies.all (fun dep =>
    match latest_execution st.execs dep.depends_on_job_id with
    | none => false
    | some e => e.status == "completed")

/-! ### Execution Engine (scheduler_engine.py) -/

/-- What the spawned child process did, as seen by `_execute_python` /
`_execute_shell`: it finished with captured stdout / stderr and a return
code; or `communicate(timeout=...)` raised `TimeoutExpired` (only possible
when a timeout is configured) with the output captured after `kill()`; or
`Popen` / `communicate` raised some other exception (spawn failure). -/
inductive ProcOutcome where
  | completes : String → String → Int → ProcOutcome
  | timesOut : String → String → ProcOutcome
  | spawnError : String → ProcOutcome
deriving DecidableEq, Repr

/-- Python `dict.update`: keys already present are overwritten in place,
new keys are appended in the update's order. -/
def dictUpdate (base : List (String × String)) (kvs : List (String × String)) :
    List (String × String) :=
  kvs.foldl
    (fun acc kv =>
      if acc.any (fun p => p.1 == kv.1) then
        acc.map (fun p => if p.1 == kv.1 then (p.1, kv.2) else p)
      else acc ++ [kv])
    base

/-- The child-process environment built by `_execute_python` /
`_execute_shell`: `env = os.environ.copy()`, then, when the stored
overrides are truthy, `json.loads` + `env.update` inside a
`try/except: pass`, so a parse failure leaves `env` at the base. -/
def build_env (base : List (String × String)) : EnvVars → List (String × String)
  | .absent => base
  | .malformed => base
  | .parses kvs => dictUpdate base kvs

/-- `env` passed to `subprocess.Popen` for a job. -/
def spawn_env (base : List (String × String)) (job : Job) : List (String × String) :=
  build_env base job.environment_vars

/-- `cwd = job.get("working_directory") or os.getcwd()` (Python `or`:
empty string falls back too). -/
def spawn_cwd (cwdDefault : String) (job : Job) : String :=
  match job.working_directory with
  | some d => if d == "" then cwdDefault else d
  | none => cwdDefault

/-- The diagnostic `_execute_*` prepends on `TimeoutExpired`:
`f"Process timed out after {timeout} seconds\n"`. -/
def timeout_message (job : Job) : String :=
  let ts := match job.timeout_seconds with
    | some t => toString t
    | none => "None"
  "Process timed out after " ++ ts ++ " seconds\n"

/-- `_execute_shell` (scheduler_engine.py lines 245-279): returns the
`(stdout, stderr, returncode)` triple, mapping `TimeoutExpired` to exit
code 1 with the timeout diagnostic prepended to stderr; any other
exception propagates (`Except.error`). -/
def _execute_shell (job : Job) : ProcOutcome → Except String (String × String × Int)
  | .completes o e c => .ok (o, e, c)
  | .timesOut o e => .ok (o, timeout_message job ++ e, 1)
  | .spawnError m => .error m

/-- `_execute_python` (lines 208-243): identical capture / timeout
handling; only the spawned command differs (`["python3"] + command.split()`). -/
def _execute_python (job : Job) : ProcOutcome → Except String (String × String × Int)
  | .completes o e c => .ok (o, e, c)
  | .timesOut o e => .ok (o, timeout_message job ++ e, 1)
  | .spawnError m => .error m

/-- `_execute_sql` delegates to `_execute_shell`. -/
def _execute_sql (job : Job) (p : ProcOutcome) : Except String (String × String × Int) :=
  _execute_shell job p

/-- Result of one iteration of the retry loop's body, before the exit-code
test: the `(output, error_output, exit_code)` tuple was assigned (`ran`),
or the job type matched no branch (`unknownType`, which assigns only
`error_output` and `exit_code`), or an exception was caught by the
`except` clause (`exn`, likewise leaving `output` untouched). -/
inductive AttemptResult where
  | ran : String → String → Int → AttemptResult
  | unknownType : String → AttemptResult
  | exn : String → AttemptResult
deriving DecidableEq, Repr

/-- Dispatch on `job["job_type"]` inside the retry loop (lines 150-159),
with a helper exception surfacing as `exn`. -/
def run_attempt_body (job : Job) (p : ProcOutcome) : AttemptResult :=
  if job.job_type == "python" then
    match _execute_python job p with
    | .ok (o, e, c) => .ran o e c
    | .error m => .exn m
  else if job.job_type == "shell" then
    match _execute_shell job p with
    | .ok (o, e, c) => .ran o e c
    | .error m => .exn m
  else if job.job_type == "sql" then
    match _execute_sql job p with
    | .ok (o, e, c) => .ran o e c
    | .error m => .exn m
  else .unknownType job.job_type

/-- The retry loop's mutable locals (lines 136-141). -/
structure RunAcc where
  retry_count : Nat
  success : Bool
  output : String
  error_output : String
  exit_code : Option Int
deriving DecidableEq, Repr

def initAcc : RunAcc :=
  { retry_count := 0, success := false, output := "", error_output := "",
    exit_code := none }

/-- One iteration of the retry loop after the body produced `r`
(lines 150-169): on exit code 0 set success, otherwise increment
`retry_count`; the `except` clause sets `error_output` / `exit_code = 1`
and also increments. -/
def runStep (acc : RunAcc) (r : AttemptResult) : RunAcc :=
  match r with
  | .ran o e c =>
      if c == 0 then
        { acc with output := o, error_output := e, exit_code := some c,
                   success := true }
      else
        { acc with output := o, error_output := e, exit_code := some c,
                   retry_count := acc.retry_count + 1 }
  | .unknownType jt =>
      { acc with error_output := "Unknown job type: " ++ jt, exit_code := some 1,
                 retry_count := acc.retry_count + 1 }
  | .exn m =>
      { acc with error_output := "Execution error: " ++ m, exit_code := some 1,
                 retry_count := acc.retry_count + 1 }

/-- Fueled unfolding of
`while retry_count <= max_retries and not success`.  The `retry_count` at
the top of an iteration equals the index of the attempt being made (every
earlier attempt failed and incremented it), so attempt `k` runs against
the process oracle `procs k`. -/
def run_loop_aux (job : Job) (procs : Nat → ProcOutcome) :
    Nat → RunAcc → RunAcc
  | 0, acc => acc
  | fuel + 1, acc =>
      if acc.retry_count ≤ job.max_retries && !acc.success then
        run_loop_aux job procs fuel
          (runStep acc (run_attempt_body job (procs acc.retry_count)))
      else acc

/-- The retry loop of `execute_job` (lines 143-169).  Fuel
`max_retries + 2` exceeds the loop's iteration bound (`retry_count`
increments on every continuing iteration and starts at 0). -/
def run_loop (job : Job) (procs : Nat → ProcOutcome) : RunAcc :=
  run_loop_aux job procs (job.max_retries + 2) initAcc

/-- The stored retry count (line 182):
`retry_count - 1 if retry_count > 0 else 0`. -/
def stored_retry (rc : Nat) : Nat :=
  if rc > 0 then rc - 1 else 0

/-- Number of attempts the loop performed, derived from its final locals:
each failed attempt incremented `retry_count` and a successful attempt
(which leaves `retry_count` alone) ended the loop. -/
def attempts_made (acc : RunAcc) : Nat :=
  acc.retry_count + (if acc.success then 1 else 0)

/-- `combined_output` passed to the final status callback
(lines 196-200). -/
def combined_output (acc : RunAcc) : String :=
  if acc.error_output != "" then
    acc.output ++ "\n\nERROR OUTPUT:\n" ++ acc.error_output
  else acc.output

/-- An invocation of the status callback: `(job_id, status)` at start,
`(job_id, status, combined_output)` at completion. -/
structure StatusEvent where
  job_id : Nat
  status : String
  output : Option String
deriving DecidableEq, Repr

/-- In-memory state of SchedulerEngine: the Job Store plus the transient
running-job registry (`self.running_jobs`, a dict used as a set). -/
structure EngineState where
  store : Store
  running_jobs : List Nat
deriving Repr

/-- `execute_job` (scheduler_engine.py lines 111-206), sequentialized:
`now` is the wall clock during the call and `procs k` the child-process
behaviour of attempt `k`.  Returns the new state and the status-callback
invocations in order.  The early return when the id is already in the
running registry performs no store mutation and emits no event; the
`finally` clause removes the id on every other path. -/
def execute_job (st : EngineState) (jid : Nat) (trig : String) (now : Int)
    (procs : Nat → ProcOutcome) : EngineState × List StatusEvent :=
  if st.running_jobs.contains jid then (st, [])
  else
    let running1 := jid :: st.running_jobs
    match get_job st.store jid with
    | none => ({ store := st.store, running_jobs := running1.erase jid }, [])
    | some job =>
      let (s1, eid) := create_execution st.store jid now trig
      let s2 := update_job_status s1 jid "running" now
      let s3 := update_job_last_run s2 jid now
      let acc := run_loop job procs
      let endStatus := if acc.success then "completed" else "failed"
      let s4 := update_execution s3 eid now endStatus acc.exit_code
                  acc.output acc.error_output (stored_retry acc.retry_count)
      let s5 := update_job_status s4 jid endStatus now
      ({ store := s5, running_jobs := running1.erase jid },
       [⟨jid, "running", none⟩, ⟨jid, endStatus, some (combined_output acc)⟩])

/-! ### Scheduler Loop (scheduler_engine.py `_scheduler_loop`) -/

/-- Python truthiness of `job.get("interval_minutes")` (`None` and 0 are
falsy). -/
def intTruthy : Option Int → Bool
  | some n => n != 0
  | none => false

/-- Python truthiness of `job.get("cron_expression")`. -/
def strTruthy : Option String → Bool
  | some s => s != ""
  | none => false

/-- The per-job due-ness computation of one `_scheduler_loop` cycle
(lines 50-90): returns `should_run` and the `next_run` value persisted
via `update_job_next_run` this cycle (if any).  `cronNext expr now`
models `croniter(expr, now).get_next(datetime)` (`none` = the
constructor raised on a malformed expression); an unparseable stored
`last_run` raises inside the branch's `try`, making the interval branch
fall into `except: should_run = True` and the cron branch abort not-due
without persisting. -/
def should_run_decision (now : Int) (cronNext : String → Int → Option Int)
    (job : Job) : Bool × Option Int :=
  if job.schedule_type == "interval" && intTruthy job.interval_minutes then
    match job.last_run with
    | .null => (true, none)
    | .invalid => (true, none)
    | .valid lr =>
        let nxt := lr + 60 * job.interval_minutes.getD 0
        if now ≥ nxt then (true, none)
        else (false, if job.next_run.truthy then none else some nxt)
  else if job.schedule_type == "cron" && strTruthy job.cron_expression then
    match cronNext (job.cron_expression.getD "") now with
    | none => (false, none)
    | some occ =>
      match job.last_run with
      | .null => (true, none)
      | .invalid => (false, none)
      | .valid lr =>
          if occ ≤ now && decide (now - lr > 60) then (true, none)
          else (false, some occ)
  else (false, none)

/-- The oracle inputs of one scheduler cycle: the wall clock, the croniter
library, and the child-process behaviour `procs jobId attempt` of the jobs
dispatched this cycle. -/
structure CycleInput where
  now : Int
  cronNext : String → Int → Option Int
  procs : Nat → Nat → ProcOutcome

/-- The body of the `for job in jobs` loop of `_scheduler_loop`
(lines 45-103) for one snapshot job record, threading the engine state:
skip ids in the running registry, compute due-ness, persist a projected
next run when the decision asks for it, and dispatch a due job whose
dependencies are met through `execute_job` (sequentialized: the dispatched
run completes before the loop continues).  The accumulator also collects
the ids dispatched this cycle. -/
def cycle_step (inp : CycleInput) (acc : EngineState × List Nat) (job : Job) :
    EngineState × List Nat :=
  let (st, ds) := acc
  if st.running_jobs.contains job.id then (st, ds)
  else
    let dec := should_run_decision inp.now inp.cronNext job
    let st1 : EngineState :=
      match dec.2 with
      | some t => { st with store := update_job_next_run st.store job.id t inp.now }
      | none => st
    if dec.1 then
      if check_dependencies_met st1.store job.id then
        ((execute_job st1 job.id "scheduler" inp.now (inp.procs job.id)).1,
         ds ++ [job.id])
      else (st1, ds)
    else (st1, ds)

/-- One full cycle of `_scheduler_loop`: fetch the enabled jobs snapshot,
then run the per-job body over it. -/
def scheduler_cycle (inp : CycleInput) (st : EngineState) :
    EngineState × List Nat :=
  (get_enabled_jobs st.store).foldl (cycle_step inp) (st, [])

/-- Any number of consecutive scheduler cycles; returns the list of
dispatch lists, one per cycle. -/
def run_cycles : List CycleInput → EngineState → List (List Nat)
  | [], _ => []
  | inp :: rest, st =>
      let r := scheduler_cycle inp st
      r.2 :: run_cycles rest r.1

/-! ### Derived observables of one retry-loop attempt -/

/-- The exit code attempt `k` leaves in the loop's `exit_code` local:
the tuple's code when the body ran, 1 for an unknown job type or a caught
exception. -/
def attempt_code (job : Job) (procs : Nat → ProcOutcome) (k : Nat) : Int :=
  match run_attempt_body job (procs k) with
  | .ran _ _ c => c
  | .unknownType _ => 1
  | .exn _ => 1

/-- The `error_output` attempt `k` leaves behind. -/
def attempt_err (job : Job) (procs : Nat → ProcOutcome) (k : Nat) : String :=
  match run_attempt_body job (procs k) with
  | .ran _ e _ => e
  | .unknownType jt => "Unknown job type: " ++ jt
  | .exn m => "Execution error: " ++ m

/-! ### Concrete fixtures used to instantiate the theorems -/

/-- A baseline job record for concrete instances. -/
def jobF : Job :=
  { id := 1, name := "alpha", description := none, job_type := "shell",
    command := "run.sh", working_directory := none, environment_vars := .absent,
    schedule_type := "manual", cron_expression := none, interval_minutes := none,
    enabled := true, status := "idle", last_run := .null, next_run := .null,
    max_retries := 0, retry_delay_seconds := 60, timeout_seconds := none,
    notification_email := none, notify_on_success := false,
    notify_on_failure := true, created_at := 0, updated_at := 0 }

def execF : ExecRec :=
  { id := 1, job_id := 2, start_time := 5, end_time := some 6,
    status := "completed", exit_code := some 0, output := some "",
    error_output := some "", retry_count := 0, triggered_by := "manual" }

/-- Store for the dependency-check instance: job 1 depends on job 2 whose
latest execution completed. -/
def stC1 : Store :=
  { jobs := [{ jobF with id := 1, name := "beta" }, { jobF with id := 2 }],
    deps := [⟨1, 2⟩], execs := [execF], next_job_id := 3, next_exec_id := 2 }

/-- Engine state whose running registry already holds job 1. -/
def stC3 : EngineState :=
  { store := { jobs := [jobF], deps := [], execs := [],
               next_job_id := 2, next_exec_id := 1 },
    running_jobs := [1] }

/-- Job with `max_retries = 2` for the retry-semantics instance. -/
def jobC2 : Job := { jobF with max_retries := 2 }

def stC2 : EngineState :=
  { store := { jobs := [jobC2], deps := [], execs := [],
               next_job_id := 2, next_exec_id := 1 },
    running_jobs := [] }

/-- A process that always exits non-zero. -/
def procsFail : Nat → ProcOutcome := fun _ => ProcOutcome.completes "" "boom" 1

/-- Job with `max_retries = 1` for the counterexample run. -/
def jobC2x : Job := { jobF with max_retries := 1 }

def stC2x : EngineState :=
  { store := { jobs := [jobC2x], deps := [], execs := [],
               next_job_id := 2, next_exec_id := 1 },
    running_jobs := [] }

/-- First attempt exits 1, second attempt exits 0. -/
def procsC2x : Nat → ProcOutcome := fun k =>
  if k == 0 then ProcOutcome.completes "" "e" 1
  else ProcOutcome.completes "ok" "" 0

/-- Enabled cron job that last ran at time 100. -/
def jobC4 : Job :=
  { jobF with schedule_type := "cron", cron_expression := some "0 * * * *",
              last_run := .valid 100 }

/-- Croniter oracle returning occurrence 900 for every base time. -/
def cronNextC4 : String → Int → Option Int := fun _ _ => some 900

/-- Manual enabled job for the never-dispatched instance. -/
def stC5 : EngineState :=
  { store := { jobs := [jobF], deps := [], execs := [],
               next_job_id := 2, next_exec_id := 1 },
    running_jobs := [] }

def inpC5 : CycleInput :=
  { now := 1000, cronNext := fun _ _ => none,
    procs := fun _ _ => ProcOutcome.completes "" "" 0 }

/-- Shell job with a 1-second timeout whose process sleeps past it. -/
def jobC6 : Job := { jobF with command := "sleep 5", timeout_seconds := some 1 }

def stC6 : EngineState :=
  { store := { jobs := [jobC6], deps := [], execs := [],
               next_job_id := 2, next_exec_id := 1 },
    running_jobs := [] }

def procsC6 : Nat → ProcOutcome := fun _ => ProcOutcome.timesOut "part" "err"

/-- Job of an unrecognized kind. -/
def jobC9 : Job := { jobF with job_type := "perl", max_retries := 2 }

def stC9 : EngineState :=
  { store := { jobs := [jobC9], deps := [], execs := [],
               next_job_id := 2, next_exec_id := 1 },
    running_jobs := [] }

/-- Interval job whose stored last-run string does not parse. -/
def jobC10 : Job :=
  { jobF with schedule_type := "interval", interval_minutes := some 5,
              last_run := .invalid }

def jobC8a : Job :=
  { jobF with id := 7, name := "zeta", max_retries := 3,
              schedule_type := "interval", interval_minutes := some 15,
              environment_vars := .parses [("K", "V")],
              timeout_seconds := some 30 }

def jobC8b : Job :=
  { jobF with id := 4, name := "alpha", job_type := "python",
              notification_email := some "ops@example.com" }

/-- Two-job store for the export / import round trip. -/
def stC8 : Store :=
  { jobs := [jobC8a, jobC8b], deps := [], execs := [],
    next_job_id := 8, next_exec_id := 1 }

/-! ### Retry-loop lemmas -/

lemma runStep_retry_count_of_ne (acc : RunAcc) (r : AttemptResult)
    (h : (match r with | .ran _ _ c => c | .unknownType _ => 1 | .exn _ => 1) ≠ 0) :
    (runStep acc r).retry_count = acc.retry_count + 1 ∧
    (runStep acc r).success = acc.success := by
  cases r with
  | ran o e c =>
      have hc : (c == 0) = false := by simpa using h
      simp [runStep, hc]
  | unknownType jt => simp [runStep]
  | exn m => simp [runStep]

lemma body_of_code_eq_zero (job : Job) (procs : Nat → ProcOutcome) (k : Nat)
    (h : attempt_code job procs k = 0) :
    ∃ o e, run_attempt_body job (procs k) = .ran o e 0 := by
  cases hb : run_attempt_body job (procs k) with
  | ran o e c =>
      have hc : c = 0 := by rw [attempt_code, hb] at h; simpa using h
      refine ⟨o, e, ?_⟩
      rw [hc]
  | unknownType jt =>
      rw [attempt_code, hb] at h; simp at h
  | exn m =>
      rw [attempt_code, hb] at h; simp at h

lemma run_loop_aux_stop (job : Job) (procs : Nat → ProcOutcome)
    (fuel : Nat) (acc : RunAcc)
    (h : (acc.retry_count ≤ job.max_retries && !acc.success) = false) :
    run_loop_aux job procs fuel acc = acc := by
  cases fuel with
  | zero => rfl
  | succ n => rw [run_loop_aux, h]; simp

lemma run_loop_aux_success (job : Job) (procs : Nat → ProcOutcome) :
    ∀ fuel acc k,
      acc.success = false →
      acc.retry_count ≤ k → k ≤ job.max_retries →
      attempt_code job procs k = 0 →
      (∀ i, acc.retry_count ≤ i → i < k → attempt_code job procs i ≠ 0) →
      job.max_retries + 2 ≤ acc.retry_count + fuel →
      ∃ o e, run_attempt_body job (procs k) = .ran o e 0 ∧
        run_loop_aux job procs fuel acc =
          { retry_count := k, success := true, output := o, error_output := e,
            exit_code := some (0 : Int) } := by
  intro fuel
  induction fuel with
  | zero =>
      intro acc k _ hk1 hk2 _ _ hfuel
      omega
  | succ n ih =>
      intro acc k hs hk1 hk2 hok hmin hfuel
      have hguard : (acc.retry_count ≤ job.max_retries && !acc.success) = true := by
        simp [hs]; omega
      rw [run_loop_aux, hguard]
      simp only [if_true]
      by_cases heq : acc.retry_count = k
      · obtain ⟨o, e, hb⟩ := body_of_code_eq_zero job procs k (heq ▸ hok)
        refine ⟨o, e, hb, ?_⟩
        rw [heq, hb]
        have hstep : runStep acc (AttemptResult.ran o e 0) =
            { retry_count := acc.retry_count, success := true, output := o,
              error_output := e, exit_code := some (0 : Int) } := by
          simp [runStep]
        rw [hstep]
        rw [run_loop_aux_stop job procs n _ (by simp)]
        rw [heq]
      · have hlt : acc.retry_count < k := lt_of_le_of_ne hk1 heq
        have hne : attempt_code job procs acc.retry_count ≠ 0 :=
          hmin acc.retry_count le_rfl hlt
        obtain ⟨hrc, hsc⟩ := runStep_retry_count_of_ne acc
          (run_attempt_body job (procs acc.retry_count))
          (by rw [attempt_code] at hne; exact hne)
        have := ih (runStep acc (run_attempt_body job (procs acc.retry_count))) k
          (by rw [hsc]; exact hs) (by omega) hk2 hok
          (by intro i h1 h2; exact hmin i (by omega) h2) (by omega)
        exact this

lemma run_loop_aux_fail (job : Job) (procs : Nat → ProcOutcome) :
    ∀ fuel acc,
      acc.success = false →
      (∀ i, acc.retry_count ≤ i → i ≤ job.max_retries →
        attempt_code job procs i ≠ 0) →
      job.max_retries + 2 ≤ acc.retry_count + fuel →
      acc.retry_count ≤ job.max_retries + 1 →
      (run_loop_aux job procs fuel acc).retry_count = job.max_retries + 1 ∧
      (run_loop_aux job procs fuel acc).success = false ∧
      (acc.retry_count ≤ job.max_retries →
        (run_loop_aux job procs fuel acc).exit_code
            = some (attempt_code job procs job.max_retries) ∧
        (run_loop_aux job procs fuel acc).error_output
            = attempt_err job procs job.max_retries) := by
  intro fuel
  induction fuel with
  | zero =>
      intro acc _ _ hfuel hub
      omega
  | succ n ih =>
      intro acc hs hall hfuel hub
      by_cases htop : acc.retry_count ≤ job.max_retries
      · have hguard : (acc.retry_count ≤ job.max_retries && !acc.success) = true := by
          simp [hs, htop]
        rw [run_loop_aux, hguard]
        simp only [if_true]
        have hne : attempt_code job procs acc.retry_count ≠ 0 :=
          hall acc.retry_count le_rfl htop
        obtain ⟨hrc, hsc⟩ := runStep_retry_count_of_ne acc
          (run_attempt_body job (procs acc.retry_count))
          (by rw [attempt_code] at hne; exact hne)
        set acc' := runStep acc (run_attempt_body job (procs acc.retry_count)) with hacc'
        by_cases hlast : acc.retry_count = job.max_retries
        · have hstop : run_loop_aux job procs n acc' = acc' := by
            apply run_loop_aux_stop
            simp [hrc, hlast]
          rw [hstop]
          refine ⟨by omega, by rw [hsc]; exact hs, fun _ => ?_⟩
          rw [← hlast, hacc']
          cases hb : run_attempt_body job (procs acc.retry_count) with
          | ran o e c =>
              have hcf : (c == 0) = false := by
                have := hall acc.retry_count le_rfl htop
                rw [attempt_code, hb] at this
                simpa using this
              constructor
              · simp [runStep, attempt_code, hb, hcf]
              · simp [runStep, attempt_err, hb, hcf]
          | unknownType jt =>
              constructor
              · simp [runStep, attempt_code, hb]
              · simp [runStep, attempt_err, hb]
          | exn m =>
              constructor
              · simp [runStep, attempt_code, hb]
              · simp [runStep, attempt_err, hb]
        · have := ih acc' (by rw [hsc]; exact hs)
            (by intro i h1 h2; exact hall i (by omega) h2)
            (by omega) (by omega)
          refine ⟨this.1, this.2.1, fun _ => this.2.2 (by omega)⟩
      · have hguard : (acc.retry_count ≤ job.max_retries && !acc.success) = false := by
          simp [htop]
        rw [run_loop_aux_stop job procs (n + 1) acc hguard]
        exact ⟨by omega, hs, fun h => absurd h htop⟩

/-- Success-case characterization of the whole retry loop: if attempt `k`
is the first to exit 0 (and `k` is within the retry ceiling), the loop
ends successfully after the `k`-th attempt, carrying that attempt's
captured output. -/
lemma run_loop_success (job : Job) (procs : Nat → ProcOutcome) (k : Nat)
    (hk : k ≤ job.max_retries)
    (hok : attempt_code job procs k = 0)
    (hmin : ∀ i < k, attempt_code job procs i ≠ 0) :
    ∃ o e, run_attempt_body job (procs k) = .ran o e 0 ∧
      run_loop job procs =
        { retry_count := k, success := true, output := o, error_output := e,
          exit_code := some (0 : Int) } := by
  have := run_loop_aux_success job procs (job.max_retries + 2) initAcc k
    rfl (Nat.zero_le k) hk hok (fun i _ h2 => hmin i h2) (by simp [initAcc])
  exact this

/-- Fail-case characterization of the whole retry loop: if every attempt
up to the ceiling exits non-zero, the loop performs `max_retries + 1`
attempts and ends unsuccessfully with the last attempt's exit code and
error output. -/
lemma run_loop_fail (job : Job) (procs : Nat → ProcOutcome)
    (hall : ∀ i ≤ job.max_retries, attempt_code job procs i ≠ 0) :
    (run_loop job procs).retry_count = job.max_retries + 1 ∧
    (run_loop job procs).success = false ∧
    (run_loop job procs).exit_code
        = some (attempt_code job procs job.max_retries) ∧
    (run_loop job procs).error_output
        = attempt_err job procs job.max_retries := by
  have := run_loop_aux_fail job procs (job.max_retries + 2) initAcc
    rfl (fun i _ h2 => hall i h2) (by simp [initAcc]) (by simp [initAcc])
  exact ⟨this.1, this.2.1, (this.2.2 (by simp [initAcc])).1,
    (this.2.2 (by simp [initAcc])).2⟩

/-! ### Unfolding `execute_job` on the normal path -/

lemma map_update_eq_of_ids_lt (execs : List ExecRec) (eid : Nat)
    (g : ExecRec → ExecRec) (h : ∀ e ∈ execs, e.id < eid) :
    execs.map (fun e => if e.id == eid then g e else e) = execs := by
  induction execs with
  | nil => rfl
  | cons a l ih =>
      have ha : a.id ≠ eid := Nat.ne_of_lt (h a (List.mem_cons_self a l))
      simp only [List.map_cons]
      rw [ih (fun e he => h e (List.mem_cons_of_mem a he))]
      simp [ha]

lemma execute_job_execs (st : EngineState) (jid : Nat) (trig : String)
    (now : Int) (procs : Nat → ProcOutcome) (job : Job)
    (hnr : st.running_jobs.contains jid = false)
    (hj : get_job st.store jid = some job)
    (hids : ∀ e ∈ st.store.execs, e.id < st.store.next_exec_id) :
    (execute_job st jid trig now procs).1.store.execs =
      st.store.execs ++
        [{ id := st.store.next_exec_id, job_id := jid, start_time := now,
           end_time := some now,
           status := if (run_loop job procs).success then "completed" else "failed",
           exit_code := (run_loop job procs).exit_code,
           output := some (run_loop job procs).output,
           error_output := some (run_loop job procs).error_output,
           retry_count := stored_retry (run_loop job procs).retry_count,
           triggered_by := trig }] := by
  rw [execute_job, hnr]
  simp only [Bool.false_eq_true, if_false, hj]
  simp only [create_execution, update_job_status, update_job_last_run,
    update_execution]
  simp only [List.map_append, List.map_cons, List.map_nil]
  rw [map_update_eq_of_ids_lt st.store.execs st.store.next_exec_id _ hids]
  simp

/-! ### C1: dependency satisfaction -/

/-- C1.  `check_dependencies_met` returns true when the job has no
dependency edges, and otherwise returns true exactly when every
prerequisite's most recent execution record exists with status
"completed"; a missing execution or a most-recent status such as
"running" or "failed" yields false. -/
theorem dependencies_satisfied_iff (st : Store) (jid : Nat) :
    (check_dependencies_met st jid = true ↔
      ∀ d ∈ st.deps, d.job_id = jid →
        ∃ e, latest_execution st.execs d.depends_on_job_id = some e ∧
          e.status = "completed") ∧
    ((∀ d ∈ st.deps, d.job_id ≠ jid) → check_dependencies_met st jid = true) := by
  have hmain : check_dependencies_met st jid = true ↔
      ∀ d ∈ st.deps, d.job_id = jid →
        ∃ e, latest_execution st.execs d.depends_on_job_id = some e ∧
          e.status = "completed" := by
    rw [check_dependencies_met]
    simp only [List.all_eq_true, List.mem_filter]
    constructor
    · intro h d hd hjid
      have hin := h d ⟨hd, by simp [hjid]⟩
      revert hin
      cases hle : latest_execution st.execs d.depends_on_job_id with
      | none => intro hin; simp at hin
      | some e =>
          intro hin
          exact ⟨e, rfl, by simpa using hin⟩
    · intro h d hd
      obtain ⟨hd1, hd2⟩ := hd
      obtain ⟨e, he, hst2⟩ := h d hd1 (by simpa using hd2)
      rw [he]
      simpa using hst2
  refine ⟨hmain, fun hno => hmain.mpr ?_⟩
  intro d hd hjid
  exact absurd hjid (hno d hd)

/-- C1 witness: in `stC1` job 1's single prerequisite (job 2) has a
completed latest execution, so the check succeeds. -/
theorem dependencies_satisfied_iff_witness :
    check_dependencies_met stC1 1 = true :=
  (dependencies_satisfied_iff stC1 1).1.mpr
    (by
      intro d hd hjid
      refine ⟨execF, ?_, rfl⟩
      have : d = (⟨1, 2⟩ : DepEdge) := by
        simpa [stC1] using hd
      rw [this]
      rfl)

/-! ### C3: running-registry early return -/

/-- C3.  A call to `execute_job` made while the job id is already in the
running registry returns the state unchanged and performs no side
effects: no execution record, no job status or last-run update, and no
status-callback invocation. -/
theorem execute_already_running_no_op (st : EngineState) (jid : Nat)
    (trig : String) (now : Int) (procs : Nat → ProcOutcome)
    (h : st.running_jobs.contains jid = true) :
    execute_job st jid trig now procs = (st, []) := by
  rw [execute_job, h]
  simp

/-- C3 witness: job 1 is already registered in `stC3`, so a second
`execute_job` call is a no-op. -/
theorem execute_already_running_no_op_witness :
    execute_job stC3 1 "manual" 0 procsFail = (stC3, []) :=
  execute_already_running_no_op stC3 1 "manual" 0 procsFail (by decide)

/-! ### C2: execution-record finalization and retry accounting -/

/-- C2 (amended).  On the normal path `execute_job` appends exactly one
execution record, finalized with the end timestamp, status "completed"
exactly when some attempt within the retry ceiling exited 0 (else
"failed"), the last exit code and captured output streams; the stored
retry count is `max_retries` when every attempt failed (attempts
performed = `max_retries + 1`), and — as the code's
`retry_count - 1 if retry_count > 0 else 0` actually computes — `k - 1`
(0 for `k = 0`) when the first success was attempt `k`, i.e. one less
than the number of failed attempts rather than the number of attempts
minus one. -/
theorem execute_job_record_spec (st : EngineState) (jid : Nat) (trig : String)
    (now : Int) (procs : Nat → ProcOutcome) (job : Job)
    (hnr : st.running_jobs.contains jid = false)
    (hj : get_job st.store jid = some job)
    (hids : ∀ e ∈ st.store.execs, e.id < st.store.next_exec_id) :
    ∃ rec : ExecRec,
      (execute_job st jid trig now procs).1.store.execs
          = st.store.execs ++ [rec] ∧
      rec.end_time = some now ∧
      (rec.status = "completed" ∨ rec.status = "failed") ∧
      (rec.status = "completed" ↔
        ∃ k, k ≤ job.max_retries ∧ attempt_code job procs k = 0) ∧
      (∀ k, k ≤ job.max_retries → attempt_code job procs k = 0 →
        (∀ i < k, attempt_code job procs i ≠ 0) →
        rec.exit_code = some 0 ∧ rec.retry_count = k - 1 ∧
        ∃ o e, run_attempt_body job (procs k) = .ran o e 0 ∧
          rec.output = some o ∧ rec.error_output = some e) ∧
      ((∀ k, k ≤ job.max_retries → attempt_code job procs k ≠ 0) →
        rec.status = "failed" ∧
        rec.exit_code = some (attempt_code job procs job.max_retries) ∧
        rec.retry_count = job.max_retries ∧
        rec.error_output = some (attempt_err job procs job.max_retries) ∧
        attempts_made (run_loop job procs) = job.max_retries + 1) := by
  have key := execute_job_execs st jid trig now procs job hnr hj hids
  refine ⟨_, key, rfl, ?_, ?_, ?_, ?_⟩
  · by_cases hs : (run_loop job procs).success <;> simp [hs]
  · constructor
    · intro hcomp
      by_cases hex : ∃ k, k ≤ job.max_retries ∧ attempt_code job procs k = 0
      · exact hex
      · push_neg at hex
        have hall : ∀ k, k ≤ job.max_retries → attempt_code job procs k ≠ 0 :=
          fun k hk => hex k hk
        have hf := run_loop_fail job procs hall
        simp only [hf.2.1] at hcomp
        simp at hcomp
    · rintro ⟨k, hk, hok⟩
      have hdp : DecidablePred fun i => i ≤ job.max_retries ∧
          attempt_code job procs i = 0 := fun i => inferInstance
      have hex : ∃ i, i ≤ job.max_retries ∧ attempt_code job procs i = 0 :=
        ⟨k, hk, hok⟩
      obtain ⟨hk0, hok0⟩ := Nat.find_spec hex
      obtain ⟨o, e, hb, hloop⟩ := run_loop_success job procs (Nat.find hex) hk0 hok0
        (by
          intro i hi
          have := Nat.find_min hex hi
          intro hzero
          exact this ⟨le_trans (le_of_lt hi) hk0, hzero⟩)
      simp [hloop]
  · intro k hk hok hmin
    obtain ⟨o, e, hb, hloop⟩ := run_loop_success job procs k hk hok hmin
    refine ⟨by simp [hloop], ?_, o, e, hb, by simp [hloop], by simp [hloop]⟩
    simp only [hloop, stored_retry]
    split
    · rfl
    · omega
  · intro hall
    have hf := run_loop_fail job procs hall
    refine ⟨by simp [hf.2.1], by simp [hf.2.2.1], ?_, by simp [hf.2.2.2], ?_⟩
    · simp [hf.1, stored_retry]
    · rw [attempts_made, hf.1, hf.2.1]
      simp

/-- C2 witness: with `max_retries = 2` and a process that always exits
non-zero, exactly one record is appended, finalized "failed" with stored
retry count 2 and end timestamp, after 3 attempts. -/
theorem execute_job_record_spec_witness :
    ((execute_job stC2 1 "scheduler" 50 procsFail).1.store.execs.map
        (fun r => (r.status, r.retry_count, r.end_time, r.exit_code)))
      = [("failed", 2, some 50, some 1)] ∧
    attempts_made (run_loop jobC2 procsFail) = 3 := by
  obtain ⟨rec, h1, h2, h3, h4, h5, h6⟩ :=
    execute_job_record_spec stC2 1 "scheduler" 50 procsFail jobC2
      (by decide) (by decide) (by decide)
  have hall : ∀ k, k ≤ jobC2.max_retries → attempt_code jobC2 procsFail k ≠ 0 :=
    by decide
  obtain ⟨hst2, hexit, hrc, _, hatt⟩ := h6 hall
  constructor
  · rw [h1, (show stC2.store.execs = ([] : List ExecRec) from rfl),
      List.nil_append]
    simp only [List.map_cons, List.map_nil]
    rw [hst2, hrc, h2, hexit]
    decide
  · exact hatt

/-- C2 counterexample to the claim as stated: with `max_retries = 1`, a
first attempt exiting 1 and a second exiting 0, two attempts are
performed and the first did not succeed, so the claim requires a stored
retry count of `2 - 1 = 1`; the code stores 0. -/
theorem execute_retry_count_claim_cex :
    ((execute_job stC2x 1 "manual" 0 procsC2x).1.store.execs.map
        (fun r => (r.status, r.retry_count)))
      = [("completed", 0)] ∧
    attempt_code jobC2x procsC2x 0 ≠ 0 ∧
    attempts_made (run_loop jobC2x procsC2x) = 2 ∧
    ¬ (0 : Nat) = 2 - 1 := by
  refine ⟨?_, by decide, by decide, by decide⟩
  rfl

/-! ### C4: cron due-ness and next-run persistence -/

/-- C4.  For an enabled cron job whose expression croniter accepts
(producing occurrence `occ` at or after `now`) and whose stored last-run
parses, the scheduler cycle marks the job due exactly when there is no
prior run, or `occ ≤ now` and more than 60 seconds have elapsed since the
last run; when not due, `occ` is the value persisted as the projected
next run. -/
theorem cron_due_iff (now : Int) (cronNext : String → Int → Option Int)
    (job : Job) (ce : String) (occ : Int)
    (hst : job.schedule_type = "cron")
    (hce : job.cron_expression = some ce)
    (hne : ce ≠ "")
    (hcn : cronNext ce now = some occ)
    (hlr : job.last_run ≠ TStamp.invalid) :
    ((should_run_decision now cronNext job).1 = true ↔
      (job.last_run = .null ∨
        ∃ lr, job.last_run = .valid lr ∧ occ ≤ now ∧ now - lr > 60)) ∧
    ((should_run_decision now cronNext job).1 = false →
      (should_run_decision now cronNext job).2 = some occ) := by
  have hg1 : (job.schedule_type == "interval") = false := by rw [hst]; decide
  have hg2 : (job.schedule_type == "cron") = true := by rw [hst]; decide
  have hg3 : strTruthy job.cron_expression = true := by
    rw [hce]; simp [strTruthy]; exact hne
  have hgetd : job.cron_expression.getD "" = ce := by rw [hce]; rfl
  simp only [should_run_decision, hg1, hg2, hg3, hgetd, hcn, Bool.false_and,
    Bool.true_and, Bool.false_eq_true, if_false, if_true]
  cases hlr2 : job.last_run with
  | null => simp
  | invalid => exact absurd hlr2 hlr
  | valid lr =>
      by_cases hcnd : occ ≤ now ∧ now - lr > 60
      · have hb : (decide (occ ≤ now) && decide (now - lr > 60)) = true := by
          simp [hcnd.1, hcnd.2]
        simp only [hb, if_true]
        constructor
        · simp only [true_iff]
          exact Or.inr ⟨lr, rfl, hcnd.1, hcnd.2⟩
        · intro h; cases h
      · have hb : (decide (occ ≤ now) && decide (now - lr > 60)) = false := by
          rcases Classical.em (occ ≤ now) with h1 | h1
          · have h2 : ¬ now - lr > 60 := fun h2 => hcnd ⟨h1, h2⟩
            simp [h2]
          · simp [h1]
        simp only [hb, Bool.false_eq_true, if_false]
        constructor
        · simp only [false_iff]
          rintro (h | ⟨lr2, hlr3, h1, h2⟩)
          · cases h
          · cases hlr3
            exact hcnd ⟨h1, h2⟩
        · intro _; trivial

/-- C4 witness: cron job last run at 100, occurrence 900, now 1000 — both
due conditions hold, so the decision marks the job due. -/
theorem cron_due_iff_witness :
    (should_run_decision 1000 cronNextC4 jobC4).1 = true :=
  (cron_due_iff 1000 cronNextC4 jobC4 "0 * * * *" 900 rfl rfl (by decide) rfl
    (by decide)).1.mpr (Or.inr ⟨100, rfl, by decide, by decide⟩)

/-! ### C10: unparseable interval last-run means due now -/

/-- C10.  An enabled interval job whose stored last-run is present but
does not parse as an ISO timestamp hits the branch's bare `except:` and
is treated as due immediately (no next-run persisted); at the cycle
level it is dispatched subject only to the running-registry and
dependency checks. -/
theorem interval_invalid_last_run_due (job : Job) (im : Int)
    (hst : job.schedule_type = "interval")
    (him : job.interval_minutes = some im) (hnz : im ≠ 0)
    (hlr : job.last_run = .invalid) :
    (∀ now cronNext, should_run_decision now cronNext job = (true, none)) ∧
    (∀ inp (st : EngineState) ds,
      st.running_jobs.contains job.id = false →
      check_dependencies_met st.store job.id = true →
      (cycle_step inp (st, ds) job).2 = ds ++ [job.id]) := by
  have hdec : ∀ now cn, should_run_decision now cn job = (true, none) := by
    intro now cn
    have hg : (job.schedule_type == "interval") = true := by rw [hst]; decide
    have hi : intTruthy job.interval_minutes = true := by
      rw [him]; simp [intTruthy]; exact hnz
    simp [should_run_decision, hg, hi, hlr]
  refine ⟨hdec, ?_⟩
  intro inp st ds hrun hdeps
  have hmem : job.id ∉ st.running_jobs := by simpa using hrun
  simp [cycle_step, hrun, hmem, hdec inp.now inp.cronNext, hdeps]

/-- C10 witness: `jobC10` (interval 5, invalid last-run) is due in any
cycle and gets dispatched from an idle state with no dependencies. -/
theorem interval_invalid_last_run_due_witness :
    should_run_decision 0 (fun _ _ => none) jobC10 = (true, none) :=
  (interval_invalid_last_run_due jobC10 5 rfl rfl (by decide) rfl).1 0
    (fun _ _ => none)

/-! ### C6: timeout handling -/

/-- C6.  A job with a configured timeout whose child process exceeds it
(on every attempt) has each attempt treated as failed with exit code 1
and the timeout diagnostic prepended to the captured error stream, so the
run finalizes "failed" with exit code 1 and the timeout marker in its
stored error output. -/
theorem timeout_finalizes_failed (st : EngineState) (jid : Nat) (trig : String)
    (now : Int) (job : Job) (t : Int) (o e : Nat → String)
    (hnr : st.running_jobs.contains jid = false)
    (hj : get_job st.store jid = some job)
    (hids : ∀ x ∈ st.store.execs, x.id < st.store.next_exec_id)
    (hty : job.job_type = "shell")
    (hto : job.timeout_seconds = some t) :
    ∃ rec : ExecRec,
      (execute_job st jid trig now
          (fun k => ProcOutcome.timesOut (o k) (e k))).1.store.execs
        = st.store.execs ++ [rec] ∧
      rec.status = "failed" ∧ rec.exit_code = some 1 ∧
      rec.error_output = some ("Process timed out after " ++ toString t ++
        " seconds\n" ++ e job.max_retries) := by
  have h1 : (job.job_type == "python") = false := by rw [hty]; decide
  have h2 : (job.job_type == "shell") = true := by rw [hty]; decide
  have hbody : ∀ k, run_attempt_body job (ProcOutcome.timesOut (o k) (e k))
      = .ran (o k) (timeout_message job ++ e k) 1 := by
    intro k
    simp [run_attempt_body, h1, h2, _execute_shell]
  have hcode : ∀ k, attempt_code job (fun k => ProcOutcome.timesOut (o k) (e k)) k
      = 1 := by
    intro k; simp [attempt_code, hbody]
  have hall : ∀ k, k ≤ job.max_retries →
      attempt_code job (fun k => ProcOutcome.timesOut (o k) (e k)) k ≠ 0 := by
    intro k _; rw [hcode]; decide
  have hf := run_loop_fail job (fun k => ProcOutcome.timesOut (o k) (e k)) hall
  have herr : attempt_err job (fun k => ProcOutcome.timesOut (o k) (e k))
      job.max_retries = timeout_message job ++ e job.max_retries := by
    simp [attempt_err, hbody]
  have hmsg : timeout_message job
      = "Process timed out after " ++ toString t ++ " seconds\n" := by
    simp [timeout_message, hto]
  have key := execute_job_execs st jid trig now
    (fun k => ProcOutcome.timesOut (o k) (e k)) job hnr hj hids
  refine ⟨_, key, ?_, ?_, ?_⟩
  · simp [hf.2.1]
  · simp [hf.2.2.1, hcode]
  · simp only [hf.2.2.2, herr, hmsg]

/-- C6 witness: `jobC6` (timeout 1, command sleeping 5) run against a
process that times out finalizes with exit code 1 and the timeout marker. -/
theorem timeout_finalizes_failed_witness :
    ((execute_job stC6 1 "manual" 0
        (fun _ => ProcOutcome.timesOut "part" "err")).1.store.execs.map
      (fun r => (r.status, r.exit_code, r.error_output)))
    = [("failed", some 1,
        some ("Process timed out after " ++ toString (1 : Int) ++
          " seconds\n" ++ "err"))] := by
  obtain ⟨rec, h1, h2, h3, h4⟩ :=
    timeout_finalizes_failed stC6 1 "manual" 0 jobC6 1 (fun _ => "part")
      (fun _ => "err") (by decide) (by decide) (by decide) rfl rfl
  rw [h1, (show stC6.store.execs = ([] : List ExecRec) from rfl),
    List.nil_append]
  simp only [List.map_cons, List.map_nil]
  rw [h2, h3, h4]

/-! ### C7: malformed environment overrides are ignored -/

/-- C7.  When the stored environment-variable overrides fail to parse,
the child-process environment silently falls back to the unmodified base
environment, and the attempt behaves exactly as if no overrides were
stored — the parse failure never surfaces as an execution failure. -/
theorem env_parse_failure_ignored (base : List (String × String)) (job : Job)
    (p : ProcOutcome) (oo ee : String) (c : Int) :
    spawn_env base { job with environment_vars := .malformed } = base ∧
    _execute_shell { job with environment_vars := .malformed } p
      = _execute_shell { job with environment_vars := .absent } p ∧
    _execute_python { job with environment_vars := .malformed } p
      = _execute_python { job with environment_vars := .absent } p ∧
    run_attempt_body { job with environment_vars := .malformed } p
      = run_attempt_body { job with environment_vars := .absent } p ∧
    (_execute_shell { job with environment_vars := .malformed }
        (ProcOutcome.completes oo ee c)).isOk = true ∧
    (_execute_shell { job with environment_vars := .malformed }
        (ProcOutcome.timesOut oo ee)).isOk = true := by
  refine ⟨rfl, ?_, ?_, ?_, rfl, rfl⟩
  · cases p <;> rfl
  · cases p <;> rfl
  · cases p <;> rfl

/-! ### C9: unrecognized job kind -/

lemma run_loop_aux_congr (job : Job) (procs procs' : Nat → ProcOutcome)
    (h : ∀ k, run_attempt_body job (procs k) = run_attempt_body job (procs' k)) :
    ∀ fuel acc, run_loop_aux job procs fuel acc = run_loop_aux job procs' fuel acc := by
  intro fuel
  induction fuel with
  | zero => intro acc; rfl
  | succ n ih =>
      intro acc
      cases hg : (acc.retry_count ≤ job.max_retries && !acc.success) with
      | true =>
          simp only [run_loop_aux, hg, if_true]
          rw [h acc.retry_count]
          exact ih _
      | false => simp only [run_loop_aux, hg, Bool.false_eq_true, if_false]

lemma execute_job_congr (st : EngineState) (jid : Nat) (trig : String)
    (now : Int) (procs procs' : Nat → ProcOutcome) (job : Job)
    (hj : get_job st.store jid = some job)
    (hl : run_loop job procs = run_loop job procs') :
    execute_job st jid trig now procs = execute_job st jid trig now procs' := by
  cases hc : st.running_jobs.contains jid with
  | true =>
      have hmem : jid ∈ st.running_jobs := by simpa using hc
      simp [execute_job, hmem]
  | false =>
      have hmem : jid ∉ st.running_jobs := by simpa using hc
      simp [execute_job, hmem, hj, hl]

/-- C9.  A job whose kind is none of python / shell / sql consults no
process at all (the run is identical for any process oracle); each
attempt produces exit code 1 and an error naming the unknown type, these
count as failures under the retry policy, and the run performs
`max_retries + 1` attempts before finalizing "failed". -/
theorem unknown_job_type_fails (st : EngineState) (jid : Nat) (trig : String)
    (now : Int) (procs procs' : Nat → ProcOutcome) (job : Job)
    (hnr : st.running_jobs.contains jid = false)
    (hj : get_job st.store jid = some job)
    (hids : ∀ x ∈ st.store.execs, x.id < st.store.next_exec_id)
    (h1 : job.job_type ≠ "python") (h2 : job.job_type ≠ "shell")
    (h3 : job.job_type ≠ "sql") :
    execute_job st jid trig now procs = execute_job st jid trig now procs' ∧
    ∃ rec : ExecRec,
      (execute_job st jid trig now procs).1.store.execs
        = st.store.execs ++ [rec] ∧
      rec.status = "failed" ∧ rec.exit_code = some 1 ∧
      rec.error_output = some ("Unknown job type: " ++ job.job_type) ∧
      rec.retry_count = job.max_retries ∧
      attempts_made (run_loop job procs) = job.max_retries + 1 := by
  have hb1 : (job.job_type == "python") = false := beq_eq_false_iff_ne.mpr h1
  have hb2 : (job.job_type == "shell") = false := beq_eq_false_iff_ne.mpr h2
  have hb3 : (job.job_type == "sql") = false := beq_eq_false_iff_ne.mpr h3
  have hbody : ∀ p, run_attempt_body job p = .unknownType job.job_type := by
    intro p
    simp [run_attempt_body, hb1, hb2, hb3]
  have hcode : ∀ (pr : Nat → ProcOutcome) k, attempt_code job pr k = 1 := by
    intro pr k; simp [attempt_code, hbody]
  have hall : ∀ k, k ≤ job.max_retries → attempt_code job procs k ≠ 0 := by
    intro k _; rw [hcode]; decide
  have hf := run_loop_fail job procs hall
  have herr : attempt_err job procs job.max_retries
      = "Unknown job type: " ++ job.job_type := by
    simp [attempt_err, hbody]
  have key := execute_job_execs st jid trig now procs job hnr hj hids
  refine ⟨?_, _, key, ?_, ?_, ?_, ?_, ?_⟩
  · refine execute_job_congr st jid trig now procs procs' job hj ?_
    rw [run_loop, run_loop]
    exact run_loop_aux_congr job procs procs' (fun k => by rw [hbody, hbody]) _ _
  · simp [hf.2.1]
  · simp [hf.2.2.1, hcode]
  · simp only [hf.2.2.2, herr]
  · simp [hf.1, stored_retry]
  · rw [attempts_made, hf.1, hf.2.1]; simp

/-- C9 witness: the "perl" job (max_retries 2) runs identically for two
different process oracles and finalizes "failed" after 3 attempts with
the unknown-type diagnostic and retry count 2. -/
theorem unknown_job_type_fails_witness :
    execute_job stC9 1 "manual" 0 procsFail
      = execute_job stC9 1 "manual" 0 (fun _ => ProcOutcome.timesOut "" "") ∧
    ((execute_job stC9 1 "manual" 0 procsFail).1.store.execs.map
        (fun r => (r.status, r.exit_code, r.error_output, r.retry_count)))
      = [("failed", some 1, some "Unknown job type: perl", 2)] ∧
    attempts_made (run_loop jobC9 procsFail) = 3 := by
  obtain ⟨heq, rec, h1, h2, h3, h4, h5, h6⟩ :=
    unknown_job_type_fails stC9 1 "manual" 0 procsFail
      (fun _ => ProcOutcome.timesOut "" "") jobC9 (by decide) (by decide)
      (by decide) (by decide) (by decide) (by decide)
  refine ⟨heq, ?_, h6⟩
  rw [h1, (show stC9.store.execs = ([] : List ExecRec) from rfl),
    List.nil_append]
  simp only [List.map_cons, List.map_nil]
  rw [h2, h3, h4, h5]
  decide

/-! ### C8: export / import round trip -/

lemma import_jobs_defFields (now : Int) :
    ∀ (recs : List Job) (s : Store),
      (import_jobs s now recs).jobs.map defFields
        = s.jobs.map defFields ++ recs.map defFields := by
  intro recs
  induction recs with
  | nil => intro s; simp [import_jobs]
  | cons r l ih =>
      intro s
      have hstep : import_jobs s now (r :: l)
          = import_jobs (create_job s now r).1 now l := rfl
      rw [hstep, ih]
      simp [create_job, defFields]

/-- C8.  Exporting all jobs and importing the exported records into an
empty store through `create_job` reproduces the job definitions: the
re-created jobs carry, record for record, the same definition fields
(kind, command, schedule, retry / timeout policy, notification settings,
…) as the exported ones, and every original job's definition appears
among the re-created jobs. -/
theorem export_import_round_trip (st : Store) (now : Int) :
    (import_jobs Store.empty now (export_jobs st)).jobs.map defFields
      = (export_jobs st).map defFields ∧
    ∀ j ∈ st.jobs, defFields j ∈
      (import_jobs Store.empty now (export_jobs st)).jobs.map defFields := by
  have h1 := import_jobs_defFields now (export_jobs st) Store.empty
  have hempty : (Store.empty).jobs.map defFields = [] := rfl
  constructor
  · rw [h1, hempty, List.nil_append]
  · intro j hj
    rw [h1, hempty, List.nil_append]
    have hmem : j ∈ export_jobs st := by
      rw [export_jobs, get_all_jobs, sortByName]
      exact (List.perm_insertionSort _ st.jobs).mem_iff.mpr hj
    exact List.mem_map_of_mem defFields hmem

/-- C8 witness: the definition fields of `jobC8a` survive the
export-then-import of `stC8` into an empty store. -/
theorem export_import_round_trip_witness :
    defFields jobC8a ∈
      (import_jobs Store.empty 5 (export_jobs stC8)).jobs.map defFields :=
  (export_import_round_trip stC8 5).2 jobC8a (by decide)

/-! ### C5: manual jobs are never auto-dispatched -/

lemma mem_map_preserve (jobs : List Job) (g : Job → Job)
    (hg : ∀ x, (g x).id = x.id ∧ (g x).schedule_type = x.schedule_type)
    (j : Job) (hj : j ∈ jobs.map g) :
    ∃ j0 ∈ jobs, j.id = j0.id ∧ j.schedule_type = j0.schedule_type := by
  obtain ⟨x, hx, rfl⟩ := List.mem_map.mp hj
  exact ⟨x, hx, (hg x).1, (hg x).2⟩

lemma update_job_status_preserve (st : Store) (i : Nat) (v : String) (n : Int)
    (j : Job) (hj : j ∈ (update_job_status st i v n).jobs) :
    ∃ j0 ∈ st.jobs, j.id = j0.id ∧ j.schedule_type = j0.schedule_type :=
  mem_map_preserve st.jobs _
    (fun x => by cases hx : x.id == i <;> simp [hx]) j hj

lemma update_job_last_run_preserve (st : Store) (i : Nat) (n : Int)
    (j : Job) (hj : j ∈ (update_job_last_run st i n).jobs) :
    ∃ j0 ∈ st.jobs, j.id = j0.id ∧ j.schedule_type = j0.schedule_type :=
  mem_map_preserve st.jobs _
    (fun x => by cases hx : x.id == i <;> simp [hx]) j hj

lemma update_job_next_run_preserve (st : Store) (i : Nat) (t n : Int)
    (j : Job) (hj : j ∈ (update_job_next_run st i t n).jobs) :
    ∃ j0 ∈ st.jobs, j.id = j0.id ∧ j.schedule_type = j0.schedule_type :=
  mem_map_preserve st.jobs _
    (fun x => by cases hx : x.id == i <;> simp [hx]) j hj

lemma execute_job_store_eq (st : EngineState) (i : Nat) (trig : String)
    (now : Int) (procs : Nat → ProcOutcome) (job : Job)
    (hmem : i ∉ st.running_jobs) (hgj : get_job st.store i = some job) :
    (execute_job st i trig now procs).1.store =
      update_job_status
        (update_execution
          (update_job_last_run
            (update_job_status (create_execution st.store i now trig).1 i
              "running" now)
            i now)
          (create_execution st.store i now trig).2 now
          (if (run_loop job procs).success then "completed" else "failed")
          (run_loop job procs).exit_code (run_loop job procs).output
          (run_loop job procs).error_output
          (stored_retry (run_loop job procs).retry_count))
        i (if (run_loop job procs).success then "completed" else "failed")
        now := by
  simp [execute_job, hmem, hgj]

lemma execute_job_preserves_sched (st : EngineState) (i : Nat) (trig : String)
    (now : Int) (procs : Nat → ProcOutcome) (j : Job)
    (hj : j ∈ (execute_job st i trig now procs).1.store.jobs) :
    ∃ j0 ∈ st.store.jobs, j.id = j0.id ∧ j.schedule_type = j0.schedule_type := by
  cases hc : st.running_jobs.contains i with
  | true =>
      have hmem : i ∈ st.running_jobs := by simpa using hc
      refine ⟨j, ?_, rfl, rfl⟩
      simpa [execute_job, hmem] using hj
  | false =>
      have hmem : i ∉ st.running_jobs := by simpa using hc
      cases hgj : get_job st.store i with
      | none =>
          refine ⟨j, ?_, rfl, rfl⟩
          simpa [execute_job, hmem, hgj] using hj
      | some job =>
          rw [execute_job_store_eq st i trig now procs job hmem hgj] at hj
          obtain ⟨j1, hj1, e1a, e1b⟩ := update_job_status_preserve _ _ _ _ j hj
          obtain ⟨j2, hj2, e2a, e2b⟩ := update_job_last_run_preserve _ _ _ j1 hj1
          obtain ⟨j3, hj3, e3a, e3b⟩ := update_job_status_preserve _ _ _ _ j2 hj2
          refine ⟨j3, hj3, ?_, ?_⟩
          · rw [e1a, e2a, e3a]
          · rw [e1b, e2b, e3b]

lemma manual_inv_of_preserve (jid : Nat) (src dst : List Job)
    (hpres : ∀ j ∈ dst, ∃ j0 ∈ src, j.id = j0.id ∧
      j.schedule_type = j0.schedule_type)
    (h : ∀ j ∈ src, j.id = jid → j.schedule_type = "manual") :
    ∀ j ∈ dst, j.id = jid → j.schedule_type = "manual" := by
  intro j hj hid
  obtain ⟨j0, hj0, e1, e2⟩ := hpres j hj
  rw [e2]
  exact h j0 hj0 (by rw [← e1]; exact hid)

lemma manual_not_due (now : Int) (cn : String → Int → Option Int) (job : Job)
    (h : job.schedule_type = "manual") :
    (should_run_decision now cn job).1 = false := by
  have hg1 : (job.schedule_type == "interval") = false := by rw [h]; decide
  have hg2 : (job.schedule_type == "cron") = false := by rw [h]; decide
  simp [should_run_decision, hg1, hg2]

lemma cycle_step_manual (inp : CycleInput) (acc : EngineState × List Nat)
    (a : Job) (jid : Nat)
    (hsa : a.id = jid → a.schedule_type = "manual")
    (hstore : ∀ j ∈ acc.1.store.jobs, j.id = jid → j.schedule_type = "manual")
    (hout : jid ∉ acc.2) :
    jid ∉ (cycle_step inp acc a).2 ∧
    (∀ j ∈ (cycle_step inp acc a).1.store.jobs,
      j.id = jid → j.schedule_type = "manual") := by
  obtain ⟨st, ds⟩ := acc
  simp only [cycle_step]
  cases hc : st.running_jobs.contains a.id with
  | true =>
      simp only [hc, if_true]
      exact ⟨hout, hstore⟩
  | false =>
      simp only [hc, Bool.false_eq_true, if_false]
      have hinv1 : ∀ (st1 : EngineState),
          (∀ j ∈ st1.store.jobs, j.id = jid → j.schedule_type = "manual") →
          ∀ j ∈ (execute_job st1 a.id "scheduler" inp.now
              (inp.procs a.id)).1.store.jobs,
            j.id = jid → j.schedule_type = "manual" := by
        intro st1 h1
        exact manual_inv_of_preserve jid st1.store.jobs _
          (fun j hj => execute_job_preserves_sched st1 a.id "scheduler" inp.now
            (inp.procs a.id) j hj) h1
      have hid_ne : (should_run_decision inp.now inp.cronNext a).1 = true →
          a.id ≠ jid := by
        intro hdue hid
        have := manual_not_due inp.now inp.cronNext a (hsa hid)
        rw [hdue] at this
        cases this
      cases hd2 : (should_run_decision inp.now inp.cronNext a).2 with
      | none =>
          simp only [hd2]
          cases hd1 : (should_run_decision inp.now inp.cronNext a).1 with
          | false => simp only [hd1, Bool.false_eq_true, if_false]; exact ⟨hout, hstore⟩
          | true =>
              simp only [hd1, if_true]
              cases hdep : check_dependencies_met st.store a.id with
              | false =>
                  simp only [hdep, Bool.false_eq_true, if_false]
                  exact ⟨hout, hstore⟩
              | true =>
                  simp only [hdep, if_true]
                  constructor
                  · intro hmem
                    rcases List.mem_append.mp hmem with h | h
                    · exact hout h
                    · exact (hid_ne hd1 (List.mem_singleton.mp h).symm).elim
                  · exact hinv1 ⟨st.store, st.running_jobs⟩ hstore
      | some t =>
          simp only [hd2]
          have hstore1 : ∀ j ∈ (update_job_next_run st.store a.id t
              inp.now).jobs, j.id = jid → j.schedule_type = "manual" :=
            manual_inv_of_preserve jid st.store.jobs _
              (fun j hj => update_job_next_run_preserve _ _ _ _ j hj) hstore
          cases hd1 : (should_run_decision inp.now inp.cronNext a).1 with
          | false => simp only [hd1, Bool.false_eq_true, if_false]; exact ⟨hout, hstore1⟩
          | true =>
              simp only [hd1, if_true]
              cases hdep : check_dependencies_met
                  (update_job_next_run st.store a.id t inp.now) a.id with
              | false =>
                  simp only [hdep, Bool.false_eq_true, if_false]
                  exact ⟨hout, hstore1⟩
              | true =>
                  simp only [hdep, if_true]
                  constructor
                  · intro hmem
                    rcases List.mem_append.mp hmem with h | h
                    · exact hout h
                    · exact (hid_ne hd1 (List.mem_singleton.mp h).symm).elim
                  · exact hinv1 _ hstore1

lemma mem_of_mem_get_enabled (st : Store) (j : Job)
    (hj : j ∈ get_enabled_jobs st) : j ∈ st.jobs := by
  rw [get_enabled_jobs, sortByName] at hj
  have hperm := List.perm_insertionSort
    (fun a b => strLe a.name b.name = true)
    (st.jobs.filter (fun x => x.enabled))
  exact List.mem_of_mem_filter (hperm.mem_iff.mp hj)

lemma cycle_fold_manual (inp : CycleInput) (jid : Nat) :
    ∀ (jobs : List Job) (acc : EngineState × List Nat),
      (∀ j ∈ jobs, j.id = jid → j.schedule_type = "manual") →
      (∀ j ∈ acc.1.store.jobs, j.id = jid → j.schedule_type = "manual") →
      jid ∉ acc.2 →
      jid ∉ (jobs.foldl (cycle_step inp) acc).2 ∧
      (∀ j ∈ (jobs.foldl (cycle_step inp) acc).1.store.jobs,
        j.id = jid → j.schedule_type = "manual") := by
  intro jobs
  induction jobs with
  | nil => intro acc _ h2 h3; exact ⟨h3, h2⟩
  | cons a l ih =>
      intro acc hsnap hstore hout
      rw [List.foldl_cons]
      have hstep := cycle_step_manual inp acc a jid
        (fun hid => hsnap a (List.mem_cons_self a l) hid) hstore hout
      exact ih (cycle_step inp acc a)
        (fun j hj => hsnap j (List.mem_cons_of_mem a hj))
        hstep.2 hstep.1

lemma scheduler_cycle_manual (inp : CycleInput) (st : EngineState) (jid : Nat)
    (h : ∀ j ∈ st.store.jobs, j.id = jid → j.schedule_type = "manual") :
    jid ∉ (scheduler_cycle inp st).2 ∧
    (∀ j ∈ (scheduler_cycle inp st).1.store.jobs,
      j.id = jid → j.schedule_type = "manual") := by
  rw [scheduler_cycle]
  exact cycle_fold_manual inp jid (get_enabled_jobs st.store) (st, [])
    (fun j hj hid => h j (mem_of_mem_get_enabled st.store j hj) hid)
    h (by simp)

/-- C5.  A job whose schedule kind is manual is never dispatched by the
scheduler loop: over any number of poll cycles (any oracle inputs, any
starting store in which every record of that job id is manual), no
cycle's dispatch list contains the job id. -/
theorem manual_jobs_never_dispatched (inps : List CycleInput)
    (st : EngineState) (jid : Nat)
    (h : ∀ j ∈ st.store.jobs, j.id = jid → j.schedule_type = "manual") :
    ∀ ds ∈ run_cycles inps st, jid ∉ ds := by
  induction inps generalizing st with
  | nil => intro ds hds; simp [run_cycles] at hds
  | cons inp rest ih =>
      intro ds hds
      rw [run_cycles] at hds
      rcases List.mem_cons.mp hds with rfl | hmem
      · exact (scheduler_cycle_manual inp st jid h).1
      · exact ih (scheduler_cycle inp st).1
          (scheduler_cycle_manual inp st jid h).2 ds hmem

/-- C5 witness: a store holding one enabled manual job (id 1) dispatches
nothing in a concrete cycle. -/
theorem manual_jobs_never_dispatched_witness :
    ((scheduler_cycle inpC5 stC5).2.contains 1) = false := by
  have h := manual_jobs_never_dispatched [inpC5] stC5 1 (by decide)
    (scheduler_cycle inpC5 stC5).2 (by simp [run_cycles])
  simpa using h
